import Mathlib

/-!
Verification of the browser-side scripts of the diabetes dashboard
repository: the HTML-escaping helper, the retry fetcher, the session
guards, the client-side filters, the table renderer and the chart
lifecycle, shallowly embedded as pure Lean functions over explicit
record and state types.
-/

namespace DiabetesDash

/-- Number of occurrences of character `c` in string `s`. -/
def occ (c : Char) (s : String) : Nat := s.data.count c

/-- `pat` occurs as a contiguous substring of `s`. -/
def containsStr (s pat : String) : Prop := pat.data <:+: s.data

instance (s pat : String) : Decidable (containsStr s pat) :=
  List.decidableInfix pat.data s.data

theorem data_append (a b : String) : (a ++ b).data = a.data ++ b.data := rfl

theorem occ_append (c : Char) (a b : String) :
    occ c (a ++ b) = occ c a + occ c b := by
  simp [occ, data_append, List.count_append]

/-- Escape of a single character, from `escapeHtml`'s replacement map
`{"&": "&amp;", "<": "&lt;", ">": "&gt;", '"': "&quot;", "'": "&#039;"}`;
characters outside the class `[&<>"']` are left unchanged. -/
def escapeChar (c : Char) : String :=
  if c = '&' then "&amp;"
  else if c = '<' then "&lt;"
  else if c = '>' then "&gt;"
  else if c = '"' then "&quot;"
  else if c = '\'' then "&#039;"
  else String.singleton c

/-- Escape applied to every character of a character list, concatenated. -/
def escList : List Char → String
  | [] => ""
  | c :: r => escapeChar c ++ escList r

/-- `escapeHtml(str)`: global regex replacement of `[&<>"']` by the
entity map (src/unnamed/part_000, lines 16-20). The JS `String(str ?? "")`
coercion is outside the model: the argument is already a string. -/
def escapeHtml (s : String) : String := escList s.data

/-- Every `&` in the character list begins one of the five entities
`&amp; &lt; &gt; &quot; &#039;` (so no stray unescaped ampersand). -/
inductive AmpOk : List Char → Prop
  | nil : AmpOk []
  | amp : ∀ r, AmpOk r → AmpOk ('&' :: 'a' :: 'm' :: 'p' :: ';' :: r)
  | lt : ∀ r, AmpOk r → AmpOk ('&' :: 'l' :: 't' :: ';' :: r)
  | gt : ∀ r, AmpOk r → AmpOk ('&' :: 'g' :: 't' :: ';' :: r)
  | quot : ∀ r, AmpOk r → AmpOk ('&' :: 'q' :: 'u' :: 'o' :: 't' :: ';' :: r)
  | num : ∀ r, AmpOk r → AmpOk ('&' :: '#' :: '0' :: '3' :: '9' :: ';' :: r)
  | other : ∀ c r, c ≠ '&' → AmpOk r → AmpOk (c :: r)

theorem occ_escapeChar_lt (c : Char) : occ '<' (escapeChar c) = 0 := by
  unfold escapeChar
  split <;> try rfl
  split <;> try rfl
  split <;> try rfl
  split <;> try rfl
  split
  · rfl
  · rename_i h1 h2 h3 h4 h5
    simp [occ, String.singleton, List.count_cons, h2]

theorem occ_escapeChar_gt (c : Char) : occ '>' (escapeChar c) = 0 := by
  unfold escapeChar
  split <;> try rfl
  split <;> try rfl
  split <;> try rfl
  split <;> try rfl
  split
  · rfl
  · rename_i h1 h2 h3 h4 h5
    simp [occ, String.singleton, List.count_cons, h3]

theorem occ_escapeChar_quot (c : Char) : occ '"' (escapeChar c) = 0 := by
  unfold escapeChar
  split <;> try rfl
  split <;> try rfl
  split <;> try rfl
  split <;> try rfl
  split
  · rfl
  · rename_i h1 h2 h3 h4 h5
    simp [occ, String.singleton, List.count_cons, h4]

theorem occ_escapeChar_apos (c : Char) : occ '\'' (escapeChar c) = 0 := by
  unfold escapeChar
  split <;> try rfl
  split <;> try rfl
  split <;> try rfl
  split <;> try rfl
  split
  · rfl
  · rename_i h1 h2 h3 h4 h5
    simp [occ, String.singleton, List.count_cons, h5]

theorem occ_escList_lt (l : List Char) : occ '<' (escList l) = 0 := by
  induction l with
  | nil => rfl
  | cons c r ih => simp [escList, occ_append, occ_escapeChar_lt, ih]

theorem occ_escList_gt (l : List Char) : occ '>' (escList l) = 0 := by
  induction l with
  | nil => rfl
  | cons c r ih => simp [escList, occ_append, occ_escapeChar_gt, ih]

theorem occ_escList_quot (l : List Char) : occ '"' (escList l) = 0 := by
  induction l with
  | nil => rfl
  | cons c r ih => simp [escList, occ_append, occ_escapeChar_quot, ih]

theorem occ_escList_apos (l : List Char) : occ '\'' (escList l) = 0 := by
  induction l with
  | nil => rfl
  | cons c r ih => simp [escList, occ_append, occ_escapeChar_apos, ih]

theorem ampOk_escList (l : List Char) : AmpOk (escList l).data := by
  induction l with
  | nil => exact AmpOk.nil
  | cons c r ih =>
    show AmpOk ((escapeChar c ++ escList r).data)
    rw [data_append]
    unfold escapeChar
    split
    · exact AmpOk.amp _ ih
    split
    · exact AmpOk.lt _ ih
    split
    · exact AmpOk.gt _ ih
    split
    · exact AmpOk.quot _ ih
    split
    · exact AmpOk.num _ ih
    · rename_i h1 h2 h3 h4 h5
      exact AmpOk.other c _ h1 ih

/-- A patient / recommendation record as consumed by the dashboards.
`none` in `bmi` / `feedback` stands for an absent or non-numeric value
(JS `Number(...)` yielding `NaN`, or `null`/`undefined`); `none` in a
list field stands for a value that is not an array. -/
structure Record where
  name : Option String := none
  bmi : Option ℚ := none
  diet : Option (List String) := none
  exercise : Option (List String) := none
  general : Option (List String) := none
  feedback : Option ℚ := none
  risks : Option (List String) := none
  ai_explanation : Option String := none
deriving DecidableEq

/-- Fixed-point decimal rendering of a rational, modelling the JS
`Number.prototype.toFixed(dp)` display (exact digit behaviour of IEEE
doubles is outside the model; only a deterministic rendering is needed). -/
def ratToFixed (dp : Nat) (q : ℚ) : String :=
  let scaled : Int := (q * ((10 : ℚ) ^ dp)).floor
  let s := toString scaled.natAbs
  let padded := String.mk (List.replicate (dp + 1 - s.length) '0') ++ s
  let cs := padded.data
  let k := cs.length - dp
  (if scaled < 0 then "-" else "") ++ String.mk (cs.take k) ++ "." ++ String.mk (cs.drop k)

/-- `bmi` is numeric and at least 30: `!Number.isNaN(bmi) && bmi >= 30`. -/
def bmiHigh (p : Record) : Bool :=
  match p.bmi with
  | some b => decide (30 ≤ b)
  | none => false

/-- feedback is present and below 3: `fb !== null && fb < 3`. -/
def fbLow (p : Record) : Bool :=
  match p.feedback with
  | some f => decide (f < 3)
  | none => false

/-- Risk labels pushed by `renderTable` when the record's risk list is
empty: `"⚠️ High BMI"` then `"⚠️ Low Feedback"`
(src/unnamed/part_000, lines 124-127). -/
def synthRisks (p : Record) : List String :=
  (if bmiHigh p then ["⚠️ High BMI"] else []) ++
  (if fbLow p then ["⚠️ Low Feedback"] else [])

/-- The risk list shown for a record: the explicit array when it is a
non-empty array, otherwise the synthesized labels
(`let risks = Array.isArray(p.risks) ? p.risks : []` followed by the
conditional pushes). -/
def riskListOf (p : Record) : List String :=
  match p.risks with
  | some l => if l = [] then synthRisks p else l
  | none => synthRisks p

/-- `risks.length ? risks.join(" | ") : "None"`. -/
def riskTextOf (p : Record) : String :=
  if riskListOf p = [] then "None" else String.intercalate " | " (riskListOf p)

/-- `arr.map(x => `<li>${escapeHtml(x)}</li>`).join("")`. -/
def listItemsHtml : List String → String
  | [] => ""
  | x :: r => "<li>" ++ escapeHtml x ++ "</li>" ++ listItemsHtml r

/-- `` `<ul class="cell-list">${...}</ul>` `` around the escaped items. -/
def ulHtml (l : List String) : String :=
  "<ul class=\"cell-list\">" ++ listItemsHtml l ++ "</ul>"

/-- The visible count label of the disclosure, `Show all (${arr.length})`. -/
def showAllLabel (total : Nat) : String :=
  "Show all (" ++ toString total ++ ")"

/-- The `<details>` disclosure block of `renderListCell`, whose count
label shows `total` and whose inner list holds all of `l`. -/
def detailsBlock (total : Nat) (l : List String) : String :=
  "\n    <details class=\"cell-details\">\n      <summary>" ++
    showAllLabel total ++ "</summary>\n      <ul class=\"cell-list\">" ++
    listItemsHtml l ++ "</ul>\n    </details>\n  "

/-- The body of `renderListCell` on the already-cleaned array `arr`. -/
def renderListCellArr (arr : List String) : String :=
  if arr = [] then "<span class=\"muted\">—</span>"
  else
    let firstHtml := ulHtml (arr.take 3)
    if arr.drop 3 = [] then firstHtml
    else firstHtml ++ detailsBlock arr.length arr

/-- `renderListCell(items)` (src/unnamed/part_000, lines 75-92):
falsy entries are dropped, at most the first 3 survivors are shown
inline, and when more exist a disclosure block listing all survivors is
appended, labelled with the survivor count. -/
def renderListCell (items : Option (List String)) : String :=
  renderListCellArr ((items.getD []).filter (fun x => x != ""))

/-- One `<tr>` of the clinician table, with `riskText` already derived
(src/unnamed/part_000, lines 130-141). -/
def rowHtml (p : Record) (riskText : String) : String :=
  let bmiStr := match p.bmi with | none => "N/A" | some b => ratToFixed 2 b
  let fbStr := match p.feedback with | none => "N/A" | some f => ratToFixed 1 f ++ "/5"
  let nm := match p.name with | some s => if s = "" then "Unknown" else s | none => "Unknown"
  let ai := (p.ai_explanation.getD "")
  "\n      <tr>\n        <td class=\"patient-name\"><strong>" ++ escapeHtml nm ++
    "</strong></td>\n        <td>" ++ bmiStr ++
    "</td>\n        <td>" ++ renderListCell p.diet ++
    "</td>\n        <td>" ++ renderListCell p.exercise ++
    "</td>\n        <td>" ++ renderListCell p.general ++
    "</td>\n        <td>" ++ fbStr ++
    "</td>\n        <td>" ++ escapeHtml riskText ++
    "</td>\n        <td class=\"ai-cell\"><div class=\"ai-wrap\">" ++ escapeHtml ai ++
    "</div></td>\n      </tr>\n    "

/-- The body of `rows.forEach(p => ...)`: the emitted row markup paired
with the record as it is left afterwards. When the record arrived with
an explicit empty `risks` array, the synthesized labels have been
pushed into that same array (the push mutates `p.risks` through the
alias `risks`); otherwise the record is untouched. -/
def renderRow (p : Record) : String × Record :=
  let p' := match p.risks with
    | some l => if l = [] then { p with risks := some (synthRisks p) } else p
    | none => p
  (rowHtml p (riskTextOf p), p')

/-- The static `<table>` head of `renderTable`. -/
def tableHeader : String :=
  "\n    <table class=\"dashboard-table clinician-table\">\n      <thead>\n        <tr>\n          <th class=\"col-patient\">Patient</th>\n          <th class=\"col-bmi\">BMI</th>\n          <th class=\"col-diet\">Diet</th>\n          <th class=\"col-exercise\">Exercise</th>\n          <th class=\"col-general\">General Advice</th>\n          <th class=\"col-feedback\">Avg Feedback</th>\n          <th class=\"col-risk\">Risk</th>\n          <th class=\"col-ai\">AI Interpretation</th>\n        </tr>\n      </thead>\n      <tbody>\n  "

/-- `renderTable(rows)` (src/unnamed/part_000, lines 94-146): the markup
written into the host element, paired with the record list as left
behind after the per-row risk mutations. -/
def renderTable (rows : List Record) : String × List Record :=
  if rows = [] then ("<p style=\"color:#555;\">No data to display.</p>", rows)
  else
    let pairs := rows.map renderRow
    (tableHeader ++ String.join (pairs.map (fun pr => pr.1)) ++ "</tbody></table>",
      pairs.map (fun pr => pr.2))

/-- `Number(p.bmi) < 25`. -/
def bmiLowP (p : Record) : Bool :=
  match p.bmi with
  | some b => decide (b < 25)
  | none => false

/-- `Number(p.bmi) >= 25 && Number(p.bmi) < 30`. -/
def bmiMedP (p : Record) : Bool :=
  match p.bmi with
  | some b => decide (25 ≤ b ∧ b < 30)
  | none => false

/-- `p.feedback != null && Number(p.feedback) >= 4`. -/
def fbHighP (p : Record) : Bool :=
  match p.feedback with
  | some f => decide (4 ≤ f)
  | none => false

/-- The pure core of `applyFilters` (src/unnamed/part_000, lines 52-73):
starting from a copy of `allPatients`, each recognized selector value
narrows the list by its band predicate, in the source's order. -/
def applyFilters (bmiFilter feedbackFilter : String) (allPatients : List Record) :
    List Record :=
  let r1 := if bmiFilter = "low" then allPatients.filter bmiLowP else allPatients
  let r2 := if bmiFilter = "medium" then r1.filter bmiMedP else r1
  let r3 := if bmiFilter = "high" then r2.filter bmiHigh else r2
  let r4 := if feedbackFilter = "low" then r3.filter fbLow else r3
  let r5 := if feedbackFilter = "high" then r4.filter fbHighP else r4
  r5

/-- A record survives every active band filter of the given state. -/
def passes (bmiFilter feedbackFilter : String) (p : Record) : Bool :=
  (if bmiFilter = "low" then bmiLowP p else true) &&
  (if bmiFilter = "medium" then bmiMedP p else true) &&
  (if bmiFilter = "high" then bmiHigh p else true) &&
  (if feedbackFilter = "low" then fbLow p else true) &&
  (if feedbackFilter = "high" then fbHighP p else true)

/-- `applyFilters` followed by `renderTable(filtered)`, with the render
mutation reflected back into `allPatients`: the filtered list holds
references to the very record objects of `allPatients`, so a risk push
performed while rendering is visible through `allPatients` as well.
Returns (allPatients afterwards, the rendered view). -/
def applyFiltersM (bmiFilter feedbackFilter : String) (allPatients : List Record) :
    List Record × List Record :=
  let filtered := applyFilters bmiFilter feedbackFilter allPatients
  let view := (renderTable filtered).2
  let newAll := allPatients.map
    (fun p => if passes bmiFilter feedbackFilter p then (renderRow p).2 else p)
  (newAll, view)

/-- Every field of a record except the mutable `risks` array. -/
def core (p : Record) :
    Option String × Option ℚ × Option (List String) × Option (List String) ×
      Option (List String) × Option ℚ × Option String :=
  (p.name, p.bmi, p.diet, p.exercise, p.general, p.feedback, p.ai_explanation)

/-- The retry loop of `fetchWithRetry` (src/unnamed/part_000, lines
23-36), with the network abstracted as `oracle : attempt index ↦ result`.
Returns (outcome, backoff delays awaited in ms, attempt indices made).
`Except.error none` is the `throw lastErr` with `lastErr` still `null`
(zero attempts). -/
def fetchWithRetryAux {α β : Type} (oracle : Nat → Except α β) :
    Nat → Nat → Option α → Except (Option α) β × List Nat × List Nat
  | 0, _, lastErr => (Except.error lastErr, [], [])
  | fuel + 1, i, _ =>
    match oracle i with
    | Except.ok b => (Except.ok b, [], [i])
    | Except.error e =>
      let r := fetchWithRetryAux oracle fuel (i + 1) (some e)
      (r.1, 250 * (i + 1) :: r.2.1, i :: r.2.2)

/-- `fetchWithRetry(url, tries)` with the default loop entry. -/
def fetchWithRetry {α β : Type} (oracle : Nat → Except α β) (tries : Nat) :
    Except (Option α) β × List Nat × List Nat :=
  fetchWithRetryAux oracle tries 0 none

/-- The `/whoami` response body. -/
structure Identity where
  role : String
  name : Option String := none
  user_id : Option String := none
deriving DecidableEq

/-- Observable side effects of the clinician session guard. -/
structure ClinicianEffects where
  redirect : Option String
  welcomeText : Option String
deriving DecidableEq

/-- `requireClinicianAndSetHeader()` (src/unnamed/part_000, lines
38-50): role mismatch redirects to the clinician login and returns
`false`; otherwise the welcome header is set and `true` is returned. -/
def requireClinicianAndSetHeader (data : Identity) : Bool × ClinicianEffects :=
  if data.role ≠ "clinician" then
    (false, { redirect := some "/clinician_login.html", welcomeText := none })
  else
    (true,
      { redirect := none,
        welcomeText := some ("Welcome, " ++
          (match data.name with
           | some s => if s = "" then "Clinician" else s
           | none => "Clinician")) })

/-- Observable side effects of the patient session guard. -/
structure PatientEffects where
  redirect : Option String
  currentUserId : Option String
deriving DecidableEq

/-- `mustBePatient()` (src/frontend/script.js, lines 4-9): on role
mismatch the location is set to the patient login page, but execution
falls through and `currentUserId` is assigned in every case; the
function body ends without returning a value. -/
def mustBePatient (me : Identity) : PatientEffects :=
  { redirect := if me.role ≠ "patient" then some "/login.html" else none,
    currentUserId := me.user_id }

/-- The session-guard contract in the spec's words: `requireRole(expected)
-> boolean`; on role mismatch redirect to the role's login page and
return false; on match return true (display name/id handling left
abstract). Stated for comparison with the two guards in the source. -/
def requireRoleSpec (expected loginPage : String) (d : Identity) : Bool × Option String :=
  if d.role = expected then (true, none) else (false, some loginPage)

/-- Chart bookkeeping for the clinician dashboard: the two instance
variables (which keep stale references after a destroy — the source
never nulls them), the sets of live chart instances per canvas, and a
fresh instance counter. -/
structure ChartState where
  bmiInst : Option Nat
  fbInst : Option Nat
  liveBmi : List Nat
  liveFb : List Nat
  fresh : Nat
deriving DecidableEq

/-- Page-load state: no instances yet. -/
def initCharts : ChartState := ⟨none, none, [], [], 0⟩

/-- `if (bmiChartInstance) bmiChartInstance.destroy();` — the pointed-to
instance stops being live; the variable is not cleared. -/
def destroyBmi (s : ChartState) : ChartState :=
  match s.bmiInst with
  | some i => { s with liveBmi := s.liveBmi.erase i }
  | none => s

/-- `if (feedbackChartInstance) feedbackChartInstance.destroy();`. -/
def destroyFb (s : ChartState) : ChartState :=
  match s.fbInst with
  | some i => { s with liveFb := s.liveFb.erase i }
  | none => s

/-- `drawCharts(rows)` (src/unnamed/part_000, lines 148-179) as a step
on the chart state: missing canvases return before any destroy; both
prior instances are destroyed next; empty rows return without creating;
otherwise one fresh instance is created per canvas. -/
def drawCharts (canvasesPresent : Bool) (rowsEmpty : Bool) (s : ChartState) : ChartState :=
  if !canvasesPresent then s
  else
    let s1 := destroyFb (destroyBmi s)
    if rowsEmpty then s1
    else
      let s2 := { s1 with bmiInst := some s1.fresh, liveBmi := s1.fresh :: s1.liveBmi,
                          fresh := s1.fresh + 1 }
      { s2 with fbInst := some s2.fresh, liveFb := s2.fresh :: s2.liveFb,
                fresh := s2.fresh + 1 }

/-- Chart bookkeeping for the legacy history page's single canvas. -/
structure LegacyChartState where
  inst : Option Nat
  live : List Nat
  fresh : Nat
deriving DecidableEq

/-- Page-load state of the legacy page. -/
def initLegacy : LegacyChartState := ⟨none, [], 0⟩

/-- The chart portion of `loadHistory()` (src/unnamed/part_001, lines
25-27): destroy the previous instance if any, then create and bind a
fresh one. -/
def loadHistoryChart (s : LegacyChartState) : LegacyChartState :=
  let s1 := match s.inst with
    | some i => { s with live := s.live.erase i }
    | none => s
  { inst := some s1.fresh, live := s1.fresh :: s1.live, fresh := s1.fresh + 1 }

/-- `${data.diet.map(d => `<li>${d}</li>`).join("")}` in the patient
recommendation card — note: no escaping of the items. -/
def sectionItemsRaw : List String → String
  | [] => ""
  | x :: r => "<li>" ++ x ++ "</li>" ++ sectionItemsRaw r

/-- The patient dashboard's recommendation card markup assigned to
`recommendationResult.innerHTML` by `getRecommendation`
(src/frontend/script.js, lines 80-106). All interpolations are raw. -/
def recCardHtml (bmi : String) (diet exercise general : List String) : String :=
  "\n      <div class=\"card\">\n        <h3 style=\"margin-top:0;\">Your Recommendation</h3>\n        <p><strong>BMI:</strong> " ++
    bmi ++
    "</p>\n\n        <div class=\"section\">\n          <strong>🥗 Diet</strong>\n          <ul>" ++
    sectionItemsRaw diet ++
    "</ul>\n        </div>\n\n        <div class=\"section\">\n          <strong>🏃 Exercise</strong>\n          <ul>" ++
    sectionItemsRaw exercise ++
    "</ul>\n        </div>\n\n        <div class=\"section\">\n          <strong>🧠 General Advice</strong>\n          <ul>" ++
    sectionItemsRaw general ++
    "</ul>\n        </div>\n\n        <div class=\"feedback\">\n          <p><strong>Was this helpful?</strong></p>\n          <button onclick=\"sendFeedback(5)\">👍 Yes</button>\n          <button onclick=\"sendFeedback(1)\">👎 No</button>\n        </div>\n      </div>\n    "

theorem bmiHigh_iff (p : Record) : bmiHigh p = true ↔ ∃ b, p.bmi = some b ∧ 30 ≤ b := by
  cases h : p.bmi <;> simp [bmiHigh, h]

theorem bmiLowP_iff (p : Record) : bmiLowP p = true ↔ ∃ b, p.bmi = some b ∧ b < 25 := by
  cases h : p.bmi <;> simp [bmiLowP, h]

theorem bmiMedP_iff (p : Record) :
    bmiMedP p = true ↔ ∃ b, p.bmi = some b ∧ 25 ≤ b ∧ b < 30 := by
  cases h : p.bmi <;> simp [bmiMedP, h]

theorem fbLow_iff (p : Record) : fbLow p = true ↔ ∃ f, p.feedback = some f ∧ f < 3 := by
  cases h : p.feedback <;> simp [fbLow, h]

theorem fbHighP_iff (p : Record) : fbHighP p = true ↔ ∃ f, p.feedback = some f ∧ 4 ≤ f := by
  cases h : p.feedback <;> simp [fbHighP, h]

/-- C4: `applyFilters` selects by the band predicates: `bmiFilter=high`
keeps exactly the records with numeric `bmi >= 30` (low: `bmi < 25`,
medium: `25 <= bmi < 30`); `feedbackFilter=low` keeps exactly the
records with non-null `feedback < 3` (and so excludes null/absent
feedback); `feedbackFilter=high` keeps `feedback >= 4`; there is no
medium feedback band (a `medium` feedback selector filters nothing). -/
theorem c4_filter_bands (ps : List Record) (p : Record) :
    (applyFilters "high" "all" ps = ps.filter bmiHigh ∧
      (p ∈ applyFilters "high" "all" ps ↔ p ∈ ps ∧ ∃ b, p.bmi = some b ∧ 30 ≤ b)) ∧
    (applyFilters "low" "all" ps = ps.filter bmiLowP ∧
      (p ∈ applyFilters "low" "all" ps ↔ p ∈ ps ∧ ∃ b, p.bmi = some b ∧ b < 25)) ∧
    (applyFilters "medium" "all" ps = ps.filter bmiMedP ∧
      (p ∈ applyFilters "medium" "all" ps ↔ p ∈ ps ∧ ∃ b, p.bmi = some b ∧ 25 ≤ b ∧ b < 30)) ∧
    (applyFilters "all" "low" ps = ps.filter fbLow ∧
      (p ∈ applyFilters "all" "low" ps ↔ p ∈ ps ∧ ∃ f, p.feedback = some f ∧ f < 3)) ∧
    (applyFilters "all" "high" ps = ps.filter fbHighP ∧
      (p ∈ applyFilters "all" "high" ps ↔ p ∈ ps ∧ ∃ f, p.feedback = some f ∧ 4 ≤ f)) ∧
    applyFilters "all" "medium" ps = ps := by
  refine ⟨⟨?_, ?_⟩, ⟨?_, ?_⟩, ⟨?_, ?_⟩, ⟨?_, ?_⟩, ⟨?_, ?_⟩, ?_⟩ <;>
    simp [applyFilters, List.mem_filter, bmiHigh_iff, bmiLowP_iff, bmiMedP_iff,
      fbLow_iff, fbHighP_iff]

/-- C2 counterexample: with an always-failing network and `tries = 3`,
the loop makes exactly the 3 attempts and raises the last error, but it
awaits delays of 250, 500 **and 750** ms — the `setTimeout` also runs
after the final failed attempt, before the error propagates, contrary
to the claimed delays of only 250 ms and 500 ms. -/
theorem c2_counterexample :
    fetchWithRetry (fun _ => (Except.error "boom" : Except String Nat)) 3 =
      (Except.error (some "boom"), [250, 500, 750], [0, 1, 2]) ∧
    ([250, 500, 750] : List Nat) ≠ [250, 500] := by
  exact ⟨rfl, by decide⟩

/-- C2 (amended): a URL failing on attempts 1 and 2 and succeeding on
attempt 3 yields the successful payload after backoffs of 250 ms and
500 ms; a URL failing on all 3 attempts raises the last error after
exactly 3 attempts, with backoffs of 250, 500 and 750 ms — the third
delay is awaited after the final failed attempt, before the error
propagates. -/
theorem c2_retry_behaviour {α β : Type} (oracle : Nat → Except α β)
    (e0 e1 e2 : α) (b : β) :
    (oracle 0 = Except.error e0 → oracle 1 = Except.error e1 → oracle 2 = Except.ok b →
      fetchWithRetry oracle 3 = (Except.ok b, [250, 500], [0, 1, 2])) ∧
    (oracle 0 = Except.error e0 → oracle 1 = Except.error e1 → oracle 2 = Except.error e2 →
      fetchWithRetry oracle 3 = (Except.error (some e2), [250, 500, 750], [0, 1, 2])) := by
  constructor <;> intro h0 h1 h2 <;>
    simp [fetchWithRetry, fetchWithRetryAux, h0, h1, h2]

theorem c2_retry_behaviour_witness :
    fetchWithRetry (fun i => if i < 2 then Except.error (toString i) else Except.ok 42) 3 =
      (Except.ok 42, [250, 500], [0, 1, 2]) ∧
    fetchWithRetry (fun _ => (Except.error "x" : Except String Nat)) 3 =
      (Except.error (some "x"), [250, 500, 750], [0, 1, 2]) :=
  ⟨(c2_retry_behaviour (fun i => if i < 2 then Except.error (toString i) else Except.ok 42)
      "0" "1" "" 42).1 rfl rfl rfl,
    (c2_retry_behaviour (fun _ => (Except.error "x" : Except String Nat))
      "x" "x" "x" 42).2 rfl rfl rfl⟩

/-- C3 counterexample: on a role mismatch the patient guard
`mustBePatient` sets the redirect but execution falls through: it still
records the fetched `user_id` in `currentUserId` (and its body returns
no boolean at all), so the caller does not abort further initialization
— the `requireRole(expected) -> boolean` contract does not hold for the
patient guard. -/
theorem c3_counterexample :
    mustBePatient { role := "clinician", name := none, user_id := some "u7" } =
      { redirect := some "/login.html", currentUserId := some "u7" } := by
  decide

/-- C3 (amended): the clinician guard satisfies the spec's
`requireRole -> boolean` contract (mismatch: redirect to
`/clinician_login.html` and `false`; match: `true`, no redirect, and a
welcome line from the display name); the patient guard only issues the
redirect on mismatch — it returns no boolean and unconditionally stores
the fetched `user_id`. -/
theorem c3_guards (d : Identity) :
    ((requireClinicianAndSetHeader d).1, (requireClinicianAndSetHeader d).2.redirect) =
      requireRoleSpec "clinician" "/clinician_login.html" d ∧
    ((requireClinicianAndSetHeader d).1 = true →
      (requireClinicianAndSetHeader d).2.welcomeText =
        some ("Welcome, " ++
          (match d.name with
           | some s => if s = "" then "Clinician" else s
           | none => "Clinician"))) ∧
    (mustBePatient d).currentUserId = d.user_id ∧
    (mustBePatient d).redirect =
      (if d.role = "patient" then none else some "/login.html") := by
  by_cases h : d.role = "clinician" <;>
    by_cases h2 : d.role = "patient" <;>
      simp [requireClinicianAndSetHeader, requireRoleSpec, mustBePatient, h, h2]

theorem c3_guards_witness :
    (requireClinicianAndSetHeader { role := "clinician", name := some "Ana" }).2.welcomeText =
      some "Welcome, Ana" :=
  (c3_guards { role := "clinician", name := some "Ana" }).2.1 rfl

theorem occ_listItemsHtml (c : Char) (hc : ∀ l : List Char, occ c (escList l) = 0)
    (l : List String) :
    occ c (listItemsHtml l) = l.length * (occ c "<li>" + occ c "</li>") := by
  induction l with
  | nil => simp [listItemsHtml, occ]
  | cons x r ih =>
    simp only [listItemsHtml, occ_append, escapeHtml, hc x.data, ih, List.length_cons]
    ring

theorem occ_ulHtml (c : Char) (hc : ∀ l : List Char, occ c (escList l) = 0)
    (l : List String) :
    occ c (ulHtml l) = occ c "<ul class=\"cell-list\">" +
      l.length * (occ c "<li>" + occ c "</li>") + occ c "</ul>" := by
  simp [ulHtml, occ_append, occ_listItemsHtml c hc]

theorem occ_detailsBlock (c : Char) (hc : ∀ l : List Char, occ c (escList l) = 0)
    (t : Nat) (l : List String) :
    occ c (detailsBlock t l) =
      occ c "\n    <details class=\"cell-details\">\n      <summary>" +
      occ c (showAllLabel t) +
      occ c "</summary>\n      <ul class=\"cell-list\">" +
      l.length * (occ c "<li>" + occ c "</li>") +
      occ c "</ul>\n    </details>\n  " := by
  simp only [detailsBlock, occ_append, occ_listItemsHtml c hc]
  try ring

theorem occ_renderListCellArr (c : Char) (hc : ∀ l : List Char, occ c (escList l) = 0)
    (l₁ l₂ : List String) (hlen : l₁.length = l₂.length) :
    occ c (renderListCellArr l₁) = occ c (renderListCellArr l₂) := by
  unfold renderListCellArr
  by_cases h1 : l₁ = []
  · have h2 : l₂ = [] := List.length_eq_zero.mp (by rw [← hlen, h1, List.length_nil])
    simp [h1, h2]
  · have h2 : l₂ ≠ [] := by
      intro h
      exact h1 (List.length_eq_zero.mp (by rw [hlen, h, List.length_nil]))
    have htake : (l₁.take 3).length = (l₂.take 3).length := by
      simp [List.length_take, hlen]
    by_cases hd : l₁.drop 3 = []
    · have hd2 : l₂.drop 3 = [] := by
        have := congrArg List.length hd
        simp [List.length_drop, hlen] at this ⊢
        omega
      simp only [if_neg h1, if_neg h2, if_pos hd, if_pos hd2]
      rw [occ_ulHtml c hc, occ_ulHtml c hc, htake]
    · have hd2 : l₂.drop 3 ≠ [] := by
        intro h
        apply hd
        have := congrArg List.length h
        simp [List.length_drop, hlen] at this ⊢
        omega
      simp only [if_neg h1, if_neg h2, if_neg hd, if_neg hd2]
      rw [occ_append, occ_append, occ_ulHtml c hc, occ_ulHtml c hc, htake,
        occ_detailsBlock c hc, occ_detailsBlock c hc, hlen]

/-- C1 (amended): in the clinician table renderer every free-text field
is inserted through `escapeHtml`, whose output contains no literal `<`,
`>`, `"` or `'` at all and in which every `&` begins one of the five
entities `&amp; &lt; &gt; &quot; &#039;`; consequently the count of each
of these dangerous characters in a rendered list cell depends only on
the number of entries, never on their content. The property does NOT
extend to the patient dashboard's recommendation card or the legacy
history table, which interpolate fields without escaping. -/
theorem c1_escaping :
    (∀ s : String,
      occ '<' (escapeHtml s) = 0 ∧ occ '>' (escapeHtml s) = 0 ∧
      occ '"' (escapeHtml s) = 0 ∧ occ '\'' (escapeHtml s) = 0 ∧
      AmpOk (escapeHtml s).data) ∧
    (∀ l₁ l₂ : List String, l₁.length = l₂.length →
      occ '<' (renderListCellArr l₁) = occ '<' (renderListCellArr l₂) ∧
      occ '>' (renderListCellArr l₁) = occ '>' (renderListCellArr l₂) ∧
      occ '"' (renderListCellArr l₁) = occ '"' (renderListCellArr l₂) ∧
      occ '\'' (renderListCellArr l₁) = occ '\'' (renderListCellArr l₂)) := by
  constructor
  · intro s
    exact ⟨occ_escList_lt s.data, occ_escList_gt s.data, occ_escList_quot s.data,
      occ_escList_apos s.data, ampOk_escList s.data⟩
  · intro l₁ l₂ hlen
    exact ⟨occ_renderListCellArr '<' occ_escList_lt l₁ l₂ hlen,
      occ_renderListCellArr '>' occ_escList_gt l₁ l₂ hlen,
      occ_renderListCellArr '"' occ_escList_quot l₁ l₂ hlen,
      occ_renderListCellArr '\'' occ_escList_apos l₁ l₂ hlen⟩

theorem c1_escaping_witness :
    occ '<' (renderListCellArr ["<b>evil</b>"]) = occ '<' (renderListCellArr ["x"]) :=
  (c1_escaping.2 ["<b>evil</b>"] ["x"] rfl).1

theorem infix_append_left {l m : List Char} (h : l <:+: m) (n : List Char) :
    l <:+: n ++ m :=
  h.trans (List.suffix_append n m).isInfix

theorem infix_append_right {l m : List Char} (h : l <:+: m) (n : List Char) :
    l <:+: m ++ n :=
  h.trans (List.prefix_append m n).isInfix

set_option maxRecDepth 100000 in
/-- C1 counterexample: the patient dashboard's recommendation card
(`getRecommendation`) interpolates the diet items verbatim — the raw
`<li><script>alert(1)</script></li>` fragment appears in the rendered
output, while `escapeHtml` would have produced
`&lt;script&gt;alert(1)&lt;/script&gt;` — so not every free-text field
is passed through HTML escaping before insertion. -/
theorem c1_counterexample :
    sectionItemsRaw ["<script>alert(1)</script>"] =
      "<li><script>alert(1)</script></li>" ∧
    containsStr (recCardHtml "22.86" ["<script>alert(1)</script>"] [] [])
      "<li><script>alert(1)</script></li>" ∧
    escapeHtml "<script>alert(1)</script>" =
      "&lt;script&gt;alert(1)&lt;/script&gt;" := by
  refine ⟨rfl, ?_, by decide⟩
  decide

theorem string_append_assoc (a b c : String) : a ++ b ++ c = a ++ (b ++ c) := by
  apply String.ext
  simp [data_append, List.append_assoc]

theorem riskListOf_noexplicit (p : Record)
    (h : p.risks = none ∨ p.risks = some []) : riskListOf p = synthRisks p := by
  rcases h with h | h <;> simp [riskListOf, h]

/-- C5 counterexample: for a record with an (empty) explicit risk array
and BMI 35, the synthesized entry is the string `"⚠️ High BMI"` — with
the warning-sign prefix — not the entry `"High BMI"` stated by the
claim. -/
theorem c5_counterexample :
    riskListOf { bmi := some 35, risks := some [] } = ["⚠️ High BMI"] ∧
    "High BMI" ∉ riskListOf { bmi := some 35, risks := some [] } ∧
    riskTextOf { bmi := some 35, risks := some [] } ≠ "High BMI" := by
  refine ⟨rfl, by decide, by decide⟩

/-- C5 (amended): when a record carries no explicit risks (absent field
or empty array), the risk cell synthesizes `"⚠️ High BMI"` exactly when
BMI is numeric and ≥ 30 and `"⚠️ Low Feedback"` exactly when feedback is
present and < 3, and shows `"None"` when neither holds; when the record
carries a non-empty explicit risk list, exactly that list is shown and
nothing is synthesized. -/
theorem c5_risk_cell (p : Record) :
    (renderRow p).1 = rowHtml p (riskTextOf p) ∧
    ((p.risks = none ∨ p.risks = some []) →
      (("⚠️ High BMI" ∈ riskListOf p) ↔ ∃ b, p.bmi = some b ∧ 30 ≤ b) ∧
      (("⚠️ Low Feedback" ∈ riskListOf p) ↔ ∃ f, p.feedback = some f ∧ f < 3) ∧
      (((¬∃ b, p.bmi = some b ∧ 30 ≤ b) ∧ ¬∃ f, p.feedback = some f ∧ f < 3) →
        riskTextOf p = "None")) ∧
    (∀ l, p.risks = some l → l ≠ [] →
      riskListOf p = l ∧ riskTextOf p = String.intercalate " | " l) := by
  refine ⟨rfl, ?_, ?_⟩
  · intro h
    have hr := riskListOf_noexplicit p h
    rw [riskTextOf, hr, ← bmiHigh_iff, ← fbLow_iff]
    cases hb : bmiHigh p <;> cases hf : fbLow p <;>
      simp [synthRisks, hb, hf]
  · intro l hl hne
    have hr : riskListOf p = l := by simp [riskListOf, hl, hne]
    refine ⟨hr, ?_⟩
    rw [riskTextOf, hr, if_neg hne]

theorem c5_risk_cell_witness :
    ("⚠️ High BMI" ∈ riskListOf { bmi := some 35, feedback := some 1, risks := some [] }) ∧
    riskTextOf { name := some "a", risks := some ["custom"] } =
      String.intercalate " | " ["custom"] :=
  ⟨((c5_risk_cell { bmi := some 35, feedback := some 1, risks := some [] }).2.1
      (Or.inr rfl)).1.mpr ⟨35, rfl, by norm_num⟩,
    ((c5_risk_cell { name := some "a", risks := some ["custom"] }).2.2
      ["custom"] rfl (by decide)).2⟩

set_option maxRecDepth 100000 in
/-- C6 counterexample: the input list `["a","b","c","d",""]` has 5
entries, but the disclosure's visible count label reads `Show all (4)`
— falsy (empty-string) entries are removed before the count is taken,
so the label equals the filtered length, not the true total length of
the input list. -/
theorem c6_counterexample :
    (["a", "b", "c", "d", ""] : List String).length = 5 ∧
    containsStr (renderListCell (some ["a", "b", "c", "d", ""])) (showAllLabel 4) ∧
    ¬ containsStr (renderListCell (some ["a", "b", "c", "d", ""])) (showAllLabel 5) := by
  refine ⟨rfl, by decide, by decide⟩

/-- C6 (amended): writing `arr` for the input list with falsy (empty)
entries removed: when `arr` has more than 3 entries the rendered cell is
exactly the inline list of the first 3 entries of `arr` followed by a
disclosure block listing all of `arr`, whose visible count label shows
`arr.length`; when `arr` has 3 or fewer entries the cell is exactly the
inline list (or the muted placeholder when `arr` is empty) — no
disclosure element. -/
theorem c6_list_cell (items : Option (List String)) :
    (3 < ((items.getD []).filter (fun x => x != "")).length →
      renderListCell items =
        ulHtml (((items.getD []).filter (fun x => x != "")).take 3) ++
          detailsBlock ((items.getD []).filter (fun x => x != "")).length
            ((items.getD []).filter (fun x => x != "")) ∧
      (((items.getD []).filter (fun x => x != "")).take 3).length = 3 ∧
      (∃ a b : String,
        renderListCell items =
          a ++ showAllLabel ((items.getD []).filter (fun x => x != "")).length ++ b)) ∧
    (((items.getD []).filter (fun x => x != "")).length ≤ 3 →
      renderListCell items =
        (if (items.getD []).filter (fun x => x != "") = []
         then "<span class=\"muted\">—</span>"
         else ulHtml ((items.getD []).filter (fun x => x != "")))) := by
  have hrw : renderListCell items =
      renderListCellArr ((items.getD []).filter (fun x => x != "")) := rfl
  rw [hrw]
  generalize (items.getD []).filter (fun x => x != "") = arr
  constructor
  · intro h3
    have hne : arr ≠ [] := by
      intro h
      rw [h] at h3
      simp at h3
    have hd : arr.drop 3 ≠ [] := by
      intro h
      have := List.drop_eq_nil_iff.mp h
      omega
    have heq : renderListCellArr arr = ulHtml (arr.take 3) ++ detailsBlock arr.length arr := by
      simp only [renderListCellArr]
      rw [if_neg hne, if_neg hd]
    refine ⟨heq, by simp [List.length_take]; omega, ?_⟩
    refine ⟨ulHtml (arr.take 3) ++ "\n    <details class=\"cell-details\">\n      <summary>",
      "</summary>\n      <ul class=\"cell-list\">" ++ listItemsHtml arr ++
        "</ul>\n    </details>\n  ", ?_⟩
    rw [heq, detailsBlock]
    simp only [string_append_assoc]
  · intro h3
    have hd : arr.drop 3 = [] := List.drop_eq_nil_iff.mpr h3
    by_cases hne : arr = []
    · simp [renderListCellArr, hne]
    · have : arr.take 3 = arr := List.take_of_length_le h3
      simp [renderListCellArr, if_neg hne, hd, this]

theorem c6_list_cell_witness :
    renderListCellArr ((some ["a", "b", "c", "d"] |>.getD []).filter (fun x => x != "")) =
        ulHtml ["a", "b", "c"] ++ detailsBlock 4 ["a", "b", "c", "d"] ∧
    renderListCellArr ((some ["a"] |>.getD []).filter (fun x => x != "")) = ulHtml ["a"] :=
  ⟨by
    have h := ((c6_list_cell (some ["a", "b", "c", "d"])).1 (by decide)).1
    simpa using h,
   by
    have h := (c6_list_cell (some ["a"])).2 (by decide)
    simpa using h⟩

/-- Rendering a row a second time, on the record as the first call left
it, emits the same markup and leaves the record unchanged: the pushed
risk list is found non-empty and reused verbatim. -/
theorem renderRow_stable (p : Record) :
    renderRow ((renderRow p).2) = ((renderRow p).1, (renderRow p).2) := by
  obtain ⟨n, b, d, e, g, f, r, a⟩ := p
  cases r with
  | none => rfl
  | some l =>
    by_cases hl : l = []
    · subst hl
      by_cases hs : synthRisks ⟨n, b, d, e, g, f, some [], a⟩ = []
      · simp [renderRow, riskTextOf, riskListOf, synthRisks, rowHtml] at hs ⊢
        simp [hs]
      · simp only [renderRow, riskTextOf, riskListOf, synthRisks, rowHtml] at hs ⊢
        simp [hs]
    · simp [renderRow, hl]

/-- C7: `renderTable` is idempotent: re-rendering the records exactly as
the first call left them (risk mutations included) produces the
identical markup, and performs no further mutation. -/
theorem c7_renderTable_idempotent (rows : List Record) :
    renderTable ((renderTable rows).2) = ((renderTable rows).1, (renderTable rows).2) := by
  by_cases h : rows = []
  · subst h; rfl
  · have h2 : ¬rows.map (fun p => (renderRow p).2) = [] := by simp [h]
    simp only [renderTable, if_neg h, List.map_map, Function.comp_def]
    rw [if_neg h2]
    simp [renderRow_stable]

theorem synthRisks_ne_nil_iff (p : Record) :
    synthRisks p ≠ [] ↔
      (∃ b, p.bmi = some b ∧ 30 ≤ b) ∨ (∃ f, p.feedback = some f ∧ f < 3) := by
  rw [← bmiHigh_iff, ← fbLow_iff]
  cases hb : bmiHigh p <;> cases hf : fbLow p <;> simp [synthRisks, hb, hf]

/-- C10: `renderTable` mutates its input. A record arriving with an
explicit empty risks array has the synthesized labels pushed into that
very array — non-empty exactly when BMI ≥ 30 or feedback < 3 — and the
mutated records are what the caller's retained list (`allPatients`)
holds afterwards; records whose risks field is absent (not an array)
or a non-empty array are left untouched. -/
theorem c10_render_mutates (p : Record) (rows : List Record) :
    (p.risks = some [] →
      (renderRow p).2 = { p with risks := some (synthRisks p) } ∧
      (synthRisks p ≠ [] ↔
        (∃ b, p.bmi = some b ∧ 30 ≤ b) ∨ (∃ f, p.feedback = some f ∧ f < 3))) ∧
    (p.risks = none → (renderRow p).2 = p) ∧
    (∀ l, p.risks = some l → l ≠ [] → (renderRow p).2 = p) ∧
    (rows ≠ [] → (renderTable rows).2 = rows.map (fun q => (renderRow q).2)) ∧
    (applyFiltersM "all" "all" rows).1 = rows.map (fun q => (renderRow q).2) := by
  refine ⟨?_, ?_, ?_, ?_, ?_⟩
  · intro h
    exact ⟨by simp [renderRow, h], synthRisks_ne_nil_iff p⟩
  · intro h
    simp [renderRow, h]
  · intro l hl hne
    simp [renderRow, hl, hne]
  · intro h
    simp [renderTable, if_neg h, List.map_map, Function.comp]
  · simp [applyFiltersM, passes, applyFilters]

theorem c10_render_mutates_witness :
    (renderRow { bmi := some 35, risks := some [] }).2 =
      { bmi := some 35, risks := some ["⚠️ High BMI"] } := by
  have h := ((c10_render_mutates { bmi := some 35, risks := some [] } []).1 rfl).1
  rw [h]
  decide

theorem core_renderRow (p : Record) : core ((renderRow p).2) = core p := by
  obtain ⟨n, b, d, e, g, f, r, a⟩ := p
  cases r with
  | none => rfl
  | some l =>
    by_cases hl : l = [] <;> simp [renderRow, core, hl]

theorem renderTable_snd_core (rows : List Record) :
    ((renderTable rows).2).map core = rows.map core ∧
    ((renderTable rows).2).length = rows.length := by
  by_cases h : rows = []
  · subst h; exact ⟨rfl, rfl⟩
  · simp [renderTable, if_neg h, List.map_map, Function.comp, core_renderRow]

theorem applyFiltersM_fst_core (bf fb : String) (all : List Record) :
    ((applyFiltersM bf fb all).1).map core = all.map core ∧
    ((applyFiltersM bf fb all).1).length = all.length := by
  constructor
  · simp only [applyFiltersM]
    induction all with
    | nil => rfl
    | cons p t ih =>
      simp only [List.map_cons, List.cons.injEq]
      refine ⟨?_, ih⟩
      by_cases hp : passes bf fb p <;> simp [hp, core_renderRow]
  · simp [applyFiltersM]

theorem applyFilters_all_all (ps : List Record) : applyFilters "all" "all" ps = ps := by
  simp [applyFilters]

/-- C8: the full record set `allPatients` is retained: one filter step
never reassigns or shrinks it (only the in-place risk normalization of
C10 touches the records), every filter application starts from the full
set, and after any sequence of filter applications, selecting
`all`/`all` renders a view holding every retained record — same length
and identical record contents apart from the normalized risks field. -/
theorem c8_allPatients_invariant (steps : List (String × String)) (all : List Record) :
    ((steps.foldl (fun a s => (applyFiltersM s.1 s.2 a).1) all).length = all.length ∧
     (steps.foldl (fun a s => (applyFiltersM s.1 s.2 a).1) all).map core = all.map core) ∧
    ((applyFiltersM "all" "all"
        (steps.foldl (fun a s => (applyFiltersM s.1 s.2 a).1) all)).2.length = all.length ∧
     (applyFiltersM "all" "all"
        (steps.foldl (fun a s => (applyFiltersM s.1 s.2 a).1) all)).2.map core =
       all.map core) ∧
    (∀ bf fb a2, ((applyFiltersM bf fb a2).1).length = a2.length ∧
      ((applyFiltersM bf fb a2).1).map core = a2.map core) := by
  have hfold : ∀ (st : List (String × String)) (a : List Record),
      (st.foldl (fun a s => (applyFiltersM s.1 s.2 a).1) a).length = a.length ∧
      (st.foldl (fun a s => (applyFiltersM s.1 s.2 a).1) a).map core = a.map core := by
    intro st
    induction st with
    | nil => exact fun a => ⟨rfl, rfl⟩
    | cons s t ih =>
      intro a
      have h1 := applyFiltersM_fst_core s.1 s.2 a
      have h2 := ih ((applyFiltersM s.1 s.2 a).1)
      exact ⟨h2.1.trans h1.2, h2.2.trans h1.1⟩
  have hf := hfold steps all
  refine ⟨hf, ?_, fun bf fb a2 => ⟨(applyFiltersM_fst_core bf fb a2).2,
    (applyFiltersM_fst_core bf fb a2).1⟩⟩
  have hview : (applyFiltersM "all" "all"
      (steps.foldl (fun a s => (applyFiltersM s.1 s.2 a).1) all)).2 =
      (renderTable (steps.foldl (fun a s => (applyFiltersM s.1 s.2 a).1) all)).2 := by
    simp [applyFiltersM, applyFilters_all_all]
  rw [hview]
  have hr := renderTable_snd_core (steps.foldl (fun a s => (applyFiltersM s.1 s.2 a).1) all)
  exact ⟨hr.2.trans hf.1, hr.1.trans hf.2⟩

/-- At most one live chart per canvas, and the instance variable points
at the live chart when there is one. -/
def chartInv (s : ChartState) : Prop :=
  (s.liveBmi = [] ∨ ∃ i, s.liveBmi = [i] ∧ s.bmiInst = some i) ∧
  (s.liveFb = [] ∨ ∃ i, s.liveFb = [i] ∧ s.fbInst = some i)

theorem destroy_both_empties (s : ChartState) (h : chartInv s) :
    (destroyFb (destroyBmi s)).liveBmi = [] ∧ (destroyFb (destroyBmi s)).liveFb = [] := by
  obtain ⟨h1, h2⟩ := h
  have hb : (destroyBmi s).liveBmi = [] := by
    rcases h1 with h1 | ⟨i, hi, hinst⟩
    · cases hB : s.bmiInst <;> simp [destroyBmi, hB, h1]
    · simp [destroyBmi, hinst, hi]
  have hfbB : (destroyBmi s).liveFb = s.liveFb ∧ (destroyBmi s).fbInst = s.fbInst := by
    cases hB : s.bmiInst <;> simp [destroyBmi, hB]
  constructor
  · cases hF : (destroyBmi s).fbInst <;> simp [destroyFb, hF, hb]
  · rcases h2 with h2 | ⟨i, hi, hinst⟩
    · cases hF : (destroyBmi s).fbInst <;> simp [destroyFb, hF, hfbB.1, h2]
    · rw [show (destroyFb (destroyBmi s)).liveFb =
          ((destroyBmi s).liveFb.erase i) from by
            simp [destroyFb, hfbB.2, hinst]]
      simp [hfbB.1, hi]

theorem chartInv_draw (c e : Bool) (s : ChartState) (h : chartInv s) :
    chartInv (drawCharts c e s) := by
  unfold drawCharts
  cases c with
  | false => simpa using h
  | true =>
    simp only [Bool.not_true, if_false, Bool.false_eq_true]
    have hd := destroy_both_empties s h
    cases e with
    | true => exact ⟨Or.inl hd.1, Or.inl hd.2⟩
    | false =>
      simp only [if_neg (by simp : ¬(false = true))]
      refine ⟨Or.inr ⟨(destroyFb (destroyBmi s)).fresh, ?_, rfl⟩,
        Or.inr ⟨(destroyFb (destroyBmi s)).fresh + 1, ?_, rfl⟩⟩
      · simp [hd.1]
      · simp [hd.2]

theorem chartInv_foldl (calls : List (Bool × Bool)) (s : ChartState) (h : chartInv s) :
    chartInv (calls.foldl (fun s c => drawCharts c.1 c.2 s) s) := by
  induction calls generalizing s with
  | nil => exact h
  | cons c t ih => exact ih _ (chartInv_draw c.1 c.2 s h)

/-- At most one live chart on the legacy page's canvas, tracked by the
instance variable. -/
def legacyInv (s : LegacyChartState) : Prop :=
  s.live = [] ∨ ∃ i, s.live = [i] ∧ s.inst = some i

theorem legacyInv_step (s : LegacyChartState) (h : legacyInv s) :
    legacyInv (loadHistoryChart s) := by
  rcases h with h | ⟨i, hi, hinst⟩
  · cases hI : s.inst with
    | none =>
      simp only [loadHistoryChart, hI]
      exact Or.inr ⟨s.fresh, by simp [h], rfl⟩
    | some j =>
      simp only [loadHistoryChart, hI]
      exact Or.inr ⟨s.fresh, by simp [h], rfl⟩
  · simp only [loadHistoryChart, hinst]
    exact Or.inr ⟨s.fresh, by simp [hi], rfl⟩

/-- C9: after any number of redraw calls — any interleaving of canvas
presence and row emptiness for the clinician `drawCharts`, any number of
legacy `loadHistory` chart redraws — at most one live chart instance is
bound per canvas: every drawing function destroys the prior instance
before creating a new one. -/
theorem c9_chart_lifecycle (calls : List (Bool × Bool)) (n : Nat) :
    ((calls.foldl (fun s c => drawCharts c.1 c.2 s) initCharts).liveBmi.length ≤ 1 ∧
     (calls.foldl (fun s c => drawCharts c.1 c.2 s) initCharts).liveFb.length ≤ 1) ∧
    (loadHistoryChart^[n] initLegacy).live.length ≤ 1 := by
  have h1 := chartInv_foldl calls initCharts ⟨Or.inl rfl, Or.inl rfl⟩
  have h2 : legacyInv (loadHistoryChart^[n] initLegacy) := by
    induction n with
    | zero => exact Or.inl rfl
    | succ m ih =>
      rw [Function.iterate_succ_apply']
      exact legacyInv_step _ ih
  refine ⟨⟨?_, ?_⟩, ?_⟩
  · rcases h1.1 with h | ⟨i, hi, _⟩
    · simp [h]
    · simp [hi]
  · rcases h1.2 with h | ⟨i, hi, _⟩
    · simp [h]
    · simp [hi]
  · rcases h2 with h | ⟨i, hi, _⟩
    · simp [h]
    · simp [hi]

end DiabetesDash
